import Mathlib

/-!
Shallow embedding of the GPU-side frame presentation core of the subwave
repository (crate subwave_appsink), covering:

* src/subwave_appsink/src/pixel_format.rs — the pixel-format catalog;
* src/subwave_appsink/src/video.rs, fn yuv_to_rgba — the BT.601 limited-range
  YUV→RGBA conversion used for thumbnails;
* src/subwave_appsink/src/render_pipeline.rs — VideoRenderPipeline (the
  registry of per-video GPU entries, with upload / prepare / draw / cleanup)
  and VideoPrimitive::prepare (the per-frame adapter).

Modelling conventions:

* Rust u32 / u64 / usize arithmetic is modelled on ℕ with an explicit
  `% 2^32` (resp. `% 2^64`) at every operation where the source performs a
  machine multiplication or addition that can overflow (release-mode wrapping
  semantics).
* The f32 arithmetic of yuv_to_rgba uses only literals with three decimal
  digits, so the exact real value of every channel expression is an integer
  number of thousandths; the embedding computes that exact value over ℤ in
  fixed-point thousandths.  Bridge lemmas below relate each fixed-point
  formula to the rational-number formula written exactly as in the source.
* Rust's `expr as u8` on a float value rounds toward zero and saturates at
  the bounds of u8 (0 and 255); `intAsU8` models this on the fixed-point
  value.
* GPU objects (textures, buffers, bind groups) are named by ℕ resource ids
  handed out by a counter; destroying an object appends its id to a
  `destroyed` list.  `Queue::write_buffer` / `Queue::write_texture` are
  modelled by recording exactly the bytes (and byte offsets) the call writes.
* The shared `Arc<AtomicBool>` liveness flag is modelled by the Bool value
  the registry observes when it loads the flag.
* `Mutex::lock().expect(..)` is modelled by an `Option` lock outcome
  (`none` = the lock cannot be acquired, in which case `expect` panics);
  a panic is an `Except.error ()` result.
-/

namespace Subwave

/-- 2^32, the modulus of Rust u32 arithmetic. -/
def U32 : ℕ := 4294967296

/-- 2^64, the modulus of Rust u64 / (64-bit) usize arithmetic. -/
def U64 : ℕ := 18446744073709551616

/-! ## Pixel format catalog — src/subwave_appsink/src/pixel_format.rs -/

/-- enum VideoPixelFormat (pixel_format.rs lines 1-7). -/
inductive VideoPixelFormat
  | Nv12
  | P010Le
  | P012Le
  | P016Le
deriving DecidableEq

/-- The wgpu texture formats the catalog can return. -/
inductive TextureFormat
  | R8Unorm
  | Rg8Unorm
  | R16Float
  | Rg16Float
deriving DecidableEq

/-- VideoPixelFormat::bit_depth (pixel_format.rs lines 10-17). -/
def VideoPixelFormat.bit_depth : VideoPixelFormat → ℕ
  | .Nv12 => 8
  | .P010Le => 10
  | .P012Le => 12
  | .P016Le => 16

/-- VideoPixelFormat::y_texture_format (pixel_format.rs lines 19-28);
the `_device` parameter is unused in the source and omitted here. -/
def VideoPixelFormat.y_texture_format : VideoPixelFormat → TextureFormat
  | .Nv12 => .R8Unorm
  | .P010Le | .P012Le | .P016Le => .R16Float

/-- VideoPixelFormat::uv_texture_format (pixel_format.rs lines 30-38). -/
def VideoPixelFormat.uv_texture_format : VideoPixelFormat → TextureFormat
  | .Nv12 => .Rg8Unorm
  | .P010Le | .P012Le | .P016Le => .Rg16Float

/-- VideoPixelFormat::bytes_per_pixel (pixel_format.rs lines 40-45). -/
def VideoPixelFormat.bytes_per_pixel : VideoPixelFormat → ℕ
  | .Nv12 => 1
  | .P010Le | .P012Le | .P016Le => 2

/-! ## YUV→RGBA conversion — src/subwave_appsink/src/video.rs lines 693-720 -/

/-- Rust `v as u8` on a float value `v`: round toward zero, saturating at 0
and 255.  The argument is the exact channel value in fixed-point
thousandths, so the float value is `m / 1000`; for nonnegative `m` integer
division by 1000 is exactly truncation toward zero, and negative values are
clamped to 0 before the rounding direction can matter. -/
def intAsU8 (m : ℤ) : ℕ := (min 255 (max 0 (m / 1000))).toNat

/-- One iteration of the yuv_to_rgba inner loop body after the three plane
reads (video.rs lines 708-715): the limited-range BT.601 transform
  r = 1.164(Y-16) + 1.596(V-128)
  g = 1.164(Y-16) - 0.813(V-128) - 0.391(U-128)
  b = 1.164(Y-16) + 2.018(U-128)
in fixed-point thousandths, then the four `rgba.push` calls.
`pixelRGBA_r_eq_ratFormula` and friends below check the fixed-point
formulas against the source's literals over ℚ. -/
def pixelRGBA (yv u v : ℕ) : List ℕ :=
  let y : ℤ := yv
  let r := 1164 * (y - 16) + 1596 * ((v : ℤ) - 128)
  let g := 1164 * (y - 16) - 813 * ((v : ℤ) - 128) - 391 * ((u : ℤ) - 128)
  let b := 1164 * (y - 16) + 2018 * ((u : ℤ) - 128)
  [intAsU8 r, intAsU8 g, intAsU8 b, 0xFF]

/-- Fallible in-order concatenation of the results of `f` over a list of
loop indices: models a Rust `for` loop that pushes bytes into `rgba` and
can panic (`none`) on an out-of-bounds index. -/
def mapOpt (f : ℕ → Option (List ℕ)) : List ℕ → Option (List ℕ)
  | [] => some []
  | a :: l => do
    let c ← f a
    let rest ← mapOpt f l
    pure (c ++ rest)

/-- The luma index of one yuv_to_rgba iteration (video.rs line 704):
`(y_src * width + x_src) as usize` with `x_src = x * downscale`,
`y_src = y * downscale`, all in wrapping u32 arithmetic. -/
def lumaIndex (width downscale x y : ℕ) : ℕ :=
  (y * downscale % U32 * width % U32 + x * downscale % U32) % U32

/-- The chroma index of one yuv_to_rgba iteration (video.rs line 702):
`uv_i = uv_start + width * (y_src / 2) + x_src / 2 * 2` in wrapping u32
arithmetic. -/
def chromaIndex (width downscale uv_start x y : ℕ) : ℕ :=
  ((uv_start + width * (y * downscale % U32 / 2) % U32) % U32
      + x * downscale % U32 / 2 * 2 % U32) % U32

/-- One iteration of the yuv_to_rgba inner loop (video.rs lines 698-716):
reads the luma sample at `lumaIndex` and the chroma pair at `chromaIndex`
and `chromaIndex + 1` (an out-of-bounds read is a panic, modelled as
`none`), and produces the four pushed bytes. -/
def yuvPixel (yuv : List ℕ) (width downscale uv_start x y : ℕ) :
    Option (List ℕ) := do
  let yv ← yuv[lumaIndex width downscale x y]?
  let u ← yuv[chromaIndex width downscale uv_start x y]?
  let v ← yuv[(chromaIndex width downscale uv_start x y + 1) % U32]?
  pure (pixelRGBA yv u v)

/-- fn yuv_to_rgba (video.rs lines 693-720).  The double loop over
`0..height/downscale` and `0..width/downscale` is embedded as nested
`mapOpt` over `List.range`; `some out` is the returned Vec, `none` a panic
from an out-of-bounds index. -/
def yuv_to_rgba (yuv : List ℕ) (width height downscale : ℕ) :
    Option (List ℕ) :=
  let uv_start := width * height % U32
  mapOpt
    (fun y =>
      mapOpt (fun x => yuvPixel yuv width downscale uv_start x y)
        (List.range (width / downscale)))
    (List.range (height / downscale))

/-- A uniform semi-planar NV12 buffer for dimensions (w, h): a luma plane
of w*h bytes all equal to `yv`, followed by the interleaved chroma plane of
w*h/2 bytes all equal to 128. -/
def uniformNV12 (w h yv : ℕ) : List ℕ :=
  List.replicate (w * h) yv ++ List.replicate (w * h / 2) 128

/-- The cast behaviour asserted by the specification for out-of-range
channels (modelled from the spec words "out-of-range results wrap/truncate
at the 8-bit boundary rather than saturating to 0 or 255"): truncate the
exact value (given in fixed-point thousandths) toward zero and keep the
low 8 bits.  This is what a wrapping cast would produce; the source's
actual Rust `as u8` cast saturates instead (see `intAsU8`). -/
def claimWrapCast (m : ℤ) : ℕ := (m / 1000).toNat % 256

/-! ## Render pipeline — src/subwave_appsink/src/render_pipeline.rs -/

/-- iced::Rectangle with f32 coordinates, modelled over ℚ. -/
structure Rectangle where
  x : ℚ
  y : ℚ
  width : ℚ
  height : ℚ
deriving DecidableEq

/-- struct Uniforms (render_pipeline.rs lines 40-45): the rect plus 240
padding bytes (so the record occupies one 256-byte dynamic-offset slot).
Only the rect carries information; the padding is zeros. -/
structure Uniforms where
  rect : ℚ × ℚ × ℚ × ℚ
deriving DecidableEq

/-- std::mem::size_of::<Uniforms>() = 16 bytes of rect + 240 padding. -/
def uniformsSize : ℕ := 4 * 4 + 240

/-- The Uniforms value built in prepare (render_pipeline.rs lines 435-443):
[bounds.x, bounds.y, bounds.x + bounds.width, bounds.y + bounds.height]. -/
def mkUniforms (bounds : Rectangle) : Uniforms :=
  ⟨(bounds.x, bounds.y, bounds.x + bounds.width, bounds.y + bounds.height)⟩

/-- A concrete rectangle for counterexample states. -/
def rect0 : Rectangle := ⟨0, 0, 0, 0⟩

/-- struct VideoEntry (render_pipeline.rs lines 47-58).  GPU objects are
resource ids; `instanceWrites` is the log of `Queue::write_buffer` calls
against the `instances` buffer, as (byte offset, record) pairs in call
order; `alive` is the value the registry observes when loading the shared
AtomicBool. -/
structure VideoEntry where
  texture_y : ℕ
  texture_uv : ℕ
  instances : ℕ
  video_uniforms : ℕ
  alive : Bool
  prepare_index : ℕ
  render_index : ℕ
  instanceWrites : List (ℕ × Uniforms)
deriving DecidableEq

/-- struct VideoRenderPipeline (render_pipeline.rs lines 60-65): the
BTreeMap<u64, VideoEntry> is an association list with unique keys (keyed
insertion only happens on a vacant entry), `nextRes` numbers freshly
created GPU objects, and `destroyed` records every destroyed object id. -/
structure VideoRenderPipeline where
  videos : List (ℕ × VideoEntry)
  nextRes : ℕ
  destroyed : List ℕ
deriving DecidableEq

/-- VideoRenderPipeline::new (render_pipeline.rs lines 68-200): starts with
an empty video map (the GPU pipeline/layout/sampler objects carry no state
relevant to the claims). -/
def VideoRenderPipeline.new : VideoRenderPipeline :=
  { videos := [], nextRes := 0, destroyed := [] }

/-- BTreeMap::get / get_mut: first entry with the given key. -/
def findVideo (videos : List (ℕ × VideoEntry)) (id : ℕ) : Option VideoEntry :=
  match videos with
  | [] => none
  | e :: rest => if e.1 = id then some e.2 else findVideo rest id

/-- Apply `g` to the entry stored under `video_id` (key-preserving). -/
def updateEntry (video_id : ℕ) (g : VideoEntry → VideoEntry)
    (videos : List (ℕ × VideoEntry)) : List (ℕ × VideoEntry) :=
  videos.map fun e => if e.1 = video_id then (e.1, g e.2) else e

/-- size of the instances buffer created in upload (render_pipeline.rs
line 286): `256 * std::mem::size_of::<Uniforms>()` — 256 slots. -/
def instancesBufferSize : ℕ := 256 * uniformsSize

/-- The bytes a `Queue::write_texture` call reads from `data` and writes
into the texture, in row-major order: `rows` rows, each taken at stride
`bytesPerRow` and `rowBytes` bytes wide (copy width in bytes). -/
def writeTextureBytes (data : List ℕ) (bytesPerRow rows rowBytes : ℕ) :
    List ℕ :=
  (List.range rows).flatMap fun r => (data.drop (r * bytesPerRow)).take rowBytes

/-- VideoRenderPipeline::upload (render_pipeline.rs lines 202-405).
If the id is vacant, create the entry (Y texture at (width, height), UV
texture at (width/2, height/2), instances and video_uniforms buffers,
bind group) with both indices 0.  Then write the Y plane from
`frame[..(width*height)]` (bytes_per_row = width, rows_per_image = height)
and the UV plane from `frame[(width*height)..]` (bytes_per_row = width,
rows_per_image = height/2, copy extent (width/2, height/2), 2 bytes per
texel).  Returns the new state plus the byte lists written to the Y and UV
textures.  `width * height` is a u32 multiplication, hence the `% U32`. -/
def VideoRenderPipeline.upload (p : VideoRenderPipeline) (video_id : ℕ)
    (alive : Bool) (width height : ℕ) (frame : List ℕ) :
    VideoRenderPipeline × List ℕ × List ℕ :=
  let p1 :=
    match findVideo p.videos video_id with
    | some _ => p
    | none =>
      { p with
        videos := p.videos ++
          [(video_id,
            { texture_y := p.nextRes
              texture_uv := p.nextRes + 1
              instances := p.nextRes + 2
              video_uniforms := p.nextRes + 3
              alive := alive
              prepare_index := 0
              render_index := 0
              instanceWrites := [] })]
        nextRes := p.nextRes + 4 }
  let uv_start := width * height % U32
  let luma := writeTextureBytes (frame.take uv_start) width height (width * 1)
  let chroma :=
    writeTextureBytes (frame.drop uv_start) width (height / 2) (width / 2 * 2)
  (p1, luma, chroma)

/-- VideoRenderPipeline::cleanup (render_pipeline.rs lines 407-420):
remove every entry whose liveness flag reads false and destroy its
texture_y, texture_uv and instances buffer (video_uniforms is not
destroyed by cleanup in the source). -/
def VideoRenderPipeline.cleanup (p : VideoRenderPipeline) :
    VideoRenderPipeline :=
  { p with
    videos := p.videos.filter fun e => e.2.alive
    destroyed := p.destroyed ++
      (p.videos.filter fun e => !e.2.alive).flatMap fun e =>
        [e.2.texture_y, e.2.texture_uv, e.2.instances] }

/-- The entry mutation performed by prepare when the entry exists
(render_pipeline.rs lines 444-456): a write_buffer of one Uniforms record
at byte offset `prepare_index * size_of::<Uniforms>()` (usize
multiplication, hence `% U64`; the source applies no `mod 256` to the
slot), then `prepare_index += 1` and `render_index = 0`. -/
def prepareUpdate (bounds : Rectangle) (v : VideoEntry) : VideoEntry :=
  { v with
    instanceWrites := v.instanceWrites ++
      [(v.prepare_index * uniformsSize % U64, mkUniforms bounds)]
    prepare_index := v.prepare_index + 1
    render_index := 0 }

/-- VideoRenderPipeline::prepare (render_pipeline.rs lines 433-460).
If the entry exists, apply `prepareUpdate` to it; in all cases run the
cleanup sweep afterwards. -/
def VideoRenderPipeline.prepare (p : VideoRenderPipeline) (video_id : ℕ)
    (bounds : Rectangle) : VideoRenderPipeline :=
  let p1 :=
    match findVideo p.videos video_id with
    | none => p
    | some _ =>
      { p with videos := updateEntry video_id (prepareUpdate bounds) p.videos }
  p1.cleanup

/-- VideoRenderPipeline::draw (render_pipeline.rs lines 462-500).
If the entry exists: bind the entry's bind group at dynamic offset
`render_index * size_of::<Uniforms>()` (cast to u32, hence `% U32`),
issue the draw, then reset prepare_index to 0 and increment render_index.
Returns the new state and `some offset`, or `(p, none)` if the id has no
entry (no render pass is begun). -/
def VideoRenderPipeline.draw (p : VideoRenderPipeline) (video_id : ℕ) :
    VideoRenderPipeline × Option ℕ :=
  match findVideo p.videos video_id with
  | none => (p, none)
  | some v =>
    ({ p with
        videos := updateEntry video_id
          (fun w => { w with prepare_index := 0, render_index := w.render_index + 1 })
          p.videos },
      some (v.render_index * uniformsSize % U32))

/-- VideoPrimitive::prepare (render_pipeline.rs lines 538-584).
`upload_frame` is self.upload_frame; `lockResult` is the outcome of
`self.frame.lock()` (`none` models a failed acquisition, on which
`.expect("lock frame mutex")` panics — an `Except.error ()`).  When the
lock is held and the frame is non-empty, upload runs; in every non-panic
path pipeline.prepare runs with the (already viewport-transformed)
bounds. -/
def VideoPrimitive.prepare (p : VideoRenderPipeline) (video_id : ℕ)
    (alive : Bool) (size : ℕ × ℕ) (upload_frame : Bool)
    (lockResult : Option (List ℕ)) (bounds : Rectangle) :
    Except Unit VideoRenderPipeline :=
  if upload_frame then
    match lockResult with
    | none => Except.error ()
    | some frame =>
      let p1 :=
        if frame.isEmpty then p
        else (p.upload video_id alive size.1 size.2 frame).1
      Except.ok (p1.prepare video_id bounds)
  else Except.ok (p.prepare video_id bounds)

/-- n sequential calls to prepare for the same id and bounds. -/
def iterPrepare (video_id : ℕ) (bounds : Rectangle) :
    ℕ → VideoRenderPipeline → VideoRenderPipeline
  | 0, p => p
  | n + 1, p => (iterPrepare video_id bounds n p).prepare video_id bounds

/-- A pipeline holding one freshly created entry (id 7, liveness true),
built by uploading a 2x2 frame into a new pipeline. -/
def entryPipeline : VideoRenderPipeline :=
  (VideoRenderPipeline.new.upload 7 true 2 2 (List.replicate 6 0)).1

/-- A pipeline holding one entry (id 7) whose liveness flag reads false. -/
def deadEntryPipeline : VideoRenderPipeline :=
  (VideoRenderPipeline.new.upload 7 false 2 2 (List.replicate 6 0)).1

/-- The closed form of entry 7 of `entryPipeline` after n prepare calls
with bounds `rect0` and no intervening draw: n instance-buffer writes at
byte offsets 0, 256, ..., (n-1)*256, prepare_index = n. -/
def entryAfter (n : ℕ) : VideoEntry :=
  { texture_y := 0, texture_uv := 1, instances := 2, video_uniforms := 3,
    alive := true, prepare_index := n, render_index := 0,
    instanceWrites := (List.range n).map fun k =>
      (k * uniformsSize % U64, mkUniforms rect0) }

/-- The red-channel fixed-point formula of `pixelRGBA`, divided by 1000,
is exactly the rational value of the source expression
`1.164 * (y - 16.0) + 1.596 * (v - 128.0)`. -/
theorem pixelRGBA_r_eq_ratFormula (yv v : ℕ) :
    ((1164 * ((yv : ℤ) - 16) + 1596 * ((v : ℤ) - 128) : ℤ) : ℚ) / 1000
      = (1.164 : ℚ) * ((yv : ℚ) - 16) + 1.596 * ((v : ℚ) - 128) := by
  push_cast
  ring_nf

/-- The green-channel fixed-point formula of `pixelRGBA`, divided by 1000,
is exactly the rational value of the source expression
`1.164 * (y - 16.0) - 0.813 * (v - 128.0) - 0.391 * (u - 128.0)`. -/
theorem pixelRGBA_g_eq_ratFormula (yv u v : ℕ) :
    ((1164 * ((yv : ℤ) - 16) - 813 * ((v : ℤ) - 128) - 391 * ((u : ℤ) - 128) : ℤ) : ℚ) / 1000
      = (1.164 : ℚ) * ((yv : ℚ) - 16) - 0.813 * ((v : ℚ) - 128)
          - 0.391 * ((u : ℚ) - 128) := by
  push_cast
  ring_nf

/-- The blue-channel fixed-point formula of `pixelRGBA`, divided by 1000,
is exactly the rational value of the source expression
`1.164 * (y - 16.0) + 2.018 * (u - 128.0)`. -/
theorem pixelRGBA_b_eq_ratFormula (yv u : ℕ) :
    ((1164 * ((yv : ℤ) - 16) + 2018 * ((u : ℤ) - 128) : ℤ) : ℚ) / 1000
      = (1.164 : ℚ) * ((yv : ℚ) - 16) + 2.018 * ((u : ℚ) - 128) := by
  push_cast
  ring_nf

/-! ## Supporting lemmas -/

/-- A write_texture whose stride equals its row width reads one contiguous
prefix of its data. -/
theorem writeTextureBytes_contiguous (data : List ℕ) (b rows : ℕ) :
    writeTextureBytes data b rows b = data.take (rows * b) := by
  induction rows with
  | zero => simp [writeTextureBytes]
  | succ n ih =>
    rw [writeTextureBytes, List.range_succ, List.flatMap_append,
      ← writeTextureBytes, ih, List.flatMap_cons, List.flatMap_nil,
      List.append_nil, Nat.succ_mul, List.take_add]

/-- If every loop iteration produces some `k`-byte chunk, the loop
succeeds and produces `l.length * k` bytes. -/
theorem mapOpt_length (f : ℕ → Option (List ℕ)) (l : List ℕ) (k : ℕ)
    (hf : ∀ a ∈ l, ∃ c, f a = some c ∧ c.length = k) :
    ∃ out, mapOpt f l = some out ∧ out.length = l.length * k := by
  induction l with
  | nil => exact ⟨[], rfl, by simp⟩
  | cons a l ih =>
    obtain ⟨c, hc, hck⟩ := hf a (List.mem_cons_self a l)
    obtain ⟨out, hout, houtk⟩ := ih fun b hb => hf b (List.mem_cons_of_mem a hb)
    refine ⟨c ++ out, ?_, ?_⟩
    · simp [mapOpt, hc, hout]
    · rw [List.length_append, hck, houtk, List.length_cons, Nat.succ_mul]
      omega

/-- If every loop iteration produces the same chunk `c`, the loop succeeds
and produces `l.length` copies of `c` in order. -/
theorem mapOpt_const (f : ℕ → Option (List ℕ)) (l : List ℕ) (c : List ℕ)
    (hf : ∀ a ∈ l, f a = some c) :
    mapOpt f l = some (List.flatten (List.replicate l.length c)) := by
  induction l with
  | nil => rfl
  | cons a l ih =>
    have ha := hf a (List.mem_cons_self a l)
    have hrest := ih fun b hb => hf b (List.mem_cons_of_mem a hb)
    simp [mapOpt, ha, hrest, List.replicate_succ]

/-- Flattening m copies of the flattening of n copies of c is flattening
m*n copies of c. -/
theorem flatten_replicate_mul (m n : ℕ) (c : List ℕ) :
    List.flatten (List.replicate m (List.flatten (List.replicate n c)))
      = List.flatten (List.replicate (m * n) c) := by
  induction m with
  | zero => simp
  | succ k ih =>
    rw [List.replicate_succ, List.flatten_cons, ih, Nat.succ_mul,
      Nat.add_comm, List.replicate_add, List.flatten_append]

/-- Arithmetic bounds on the plane indices computed by one yuv_to_rgba
iteration, before any u32 wrapping: the luma index stays inside the luma
plane and the chroma indices stay inside the first width*height*3/2 bytes. -/
theorem yuv_index_bounds (w h d x y : ℕ) (hw2 : 2 ≤ w) (hh2 : 2 ≤ h)
    (hwe : w % 2 = 0) (hhe : h % 2 = 0) (hd : 1 ≤ d)
    (hx : x < w / d) (hy : y < h / d) :
    y * d * w + x * d < w * h ∧
    w * h + w * (y * d / 2) + x * d / 2 * 2 + 1 < w * h * 3 / 2 := by
  have hxd : x * d + d ≤ w := by
    have h1 : (x + 1) * d ≤ w / d * d :=
      Nat.mul_le_mul_right d (Nat.succ_le_of_lt hx)
    have h2 : w / d * d ≤ w := Nat.div_mul_le_self w d
    have h3 : (x + 1) * d = x * d + d := by ring
    omega
  have hyd : y * d + d ≤ h := by
    have h1 : (y + 1) * d ≤ h / d * d :=
      Nat.mul_le_mul_right d (Nat.succ_le_of_lt hy)
    have h2 : h / d * d ≤ h := Nat.div_mul_le_self h d
    have h3 : (y + 1) * d = y * d + d := by ring
    omega
  obtain ⟨a, ha⟩ : ∃ a, w = 2 * a := ⟨w / 2, by omega⟩
  obtain ⟨b, hb⟩ : ∃ b, h = 2 * b := ⟨h / 2, by omega⟩
  subst ha hb
  have l1 : (y * d + 1) * (2 * a) ≤ 2 * b * (2 * a) :=
    Nat.mul_le_mul_right (2 * a) (by omega)
  have l2 : (y * d + 1) * (2 * a) = y * d * (2 * a) + 2 * a := by ring
  have l3 : 2 * b * (2 * a) = 4 * (a * b) := by ring
  have c1 : y * d / 2 + 1 ≤ b := by omega
  have c2 : (y * d / 2 + 1) * (2 * a) ≤ b * (2 * a) :=
    Nat.mul_le_mul_right (2 * a) c1
  have c3 : (y * d / 2 + 1) * (2 * a) = 2 * a * (y * d / 2) + 2 * a := by
    ring
  have c4 : b * (2 * a) = 2 * (a * b) := by ring
  have hx2 : x * d / 2 * 2 + 2 ≤ 2 * a := by omega
  have h12 : 2 * a * (2 * b) * 3 = 12 * (a * b) := by ring
  have h45 : 2 * a * (2 * b) = 4 * (a * b) := by ring
  have hab : 1 ≤ a * b := by
    have := Nat.mul_le_mul (show 1 ≤ a by omega) (show 1 ≤ b by omega)
    omega
  constructor
  · omega
  · omega

/-- The wrapped luma index is always below the u32 modulus. -/
theorem lumaIndex_lt_U32 (w d x y : ℕ) : lumaIndex w d x y < U32 :=
  Nat.mod_lt _ (by decide)

/-- The wrapped chroma index is always below the u32 modulus. -/
theorem chromaIndex_lt_U32 (w d us x y : ℕ) :
    chromaIndex w d us x y < U32 :=
  Nat.mod_lt _ (by decide)

/-- When the frame indices fit in u32 (`width*height*3/2 < 2^32`), the u32
wrapping in the luma index is the identity. -/
theorem lumaIndex_nowrap (w h d x y : ℕ) (hw2 : 2 ≤ w) (hh2 : 2 ≤ h)
    (hwe : w % 2 = 0) (hhe : h % 2 = 0) (hd : 1 ≤ d)
    (hx : x < w / d) (hy : y < h / d) (hfit : w * h * 3 / 2 < U32) :
    lumaIndex w d x y = y * d * w + x * d := by
  obtain ⟨hL, hT⟩ := yuv_index_bounds w h d x y hw2 hh2 hwe hhe hd hx hy
  have hyw : y * d ≤ y * d * w := Nat.le_mul_of_pos_right _ (by omega)
  unfold lumaIndex
  rw [Nat.mod_eq_of_lt (show y * d < U32 by omega),
    Nat.mod_eq_of_lt (show x * d < U32 by omega),
    Nat.mod_eq_of_lt (show y * d * w < U32 by omega),
    Nat.mod_eq_of_lt (show y * d * w + x * d < U32 by omega)]

/-- When the frame indices fit in u32, the u32 wrapping in the chroma
index is the identity. -/
theorem chromaIndex_nowrap (w h d x y : ℕ) (hw2 : 2 ≤ w) (hh2 : 2 ≤ h)
    (hwe : w % 2 = 0) (hhe : h % 2 = 0) (hd : 1 ≤ d)
    (hx : x < w / d) (hy : y < h / d) (hfit : w * h * 3 / 2 < U32) :
    chromaIndex w d (w * h % U32) x y
      = w * h + w * (y * d / 2) + x * d / 2 * 2 := by
  obtain ⟨hL, hT⟩ := yuv_index_bounds w h d x y hw2 hh2 hwe hhe hd hx hy
  have hyw : y * d ≤ y * d * w := Nat.le_mul_of_pos_right _ (by omega)
  unfold chromaIndex
  rw [Nat.mod_eq_of_lt (show y * d < U32 by omega),
    Nat.mod_eq_of_lt (show x * d < U32 by omega),
    Nat.mod_eq_of_lt (show w * h < U32 by omega),
    Nat.mod_eq_of_lt (show w * (y * d / 2) < U32 by omega),
    Nat.mod_eq_of_lt (show w * h + w * (y * d / 2) < U32 by omega),
    Nat.mod_eq_of_lt (show x * d / 2 * 2 < U32 by omega),
    Nat.mod_eq_of_lt
      (show w * h + w * (y * d / 2) + x * d / 2 * 2 < U32 by omega)]

/-- A found entry is a member of the map. -/
theorem findVideo_mem (l : List (ℕ × VideoEntry)) (id : ℕ) (v : VideoEntry)
    (hv : findVideo l id = some v) : (id, v) ∈ l := by
  induction l with
  | nil => simp [findVideo] at hv
  | cons e rest ih =>
    rw [findVideo] at hv
    by_cases hk : e.1 = id
    · rw [if_pos hk] at hv
      obtain ⟨k, w⟩ := e
      obtain rfl : k = id := hk
      obtain rfl : w = v := Option.some.inj hv
      exact List.mem_cons_self _ _
    · rw [if_neg hk] at hv
      exact List.mem_cons_of_mem e (ih hv)

/-- Keys absent from the map are not found. -/
theorem findVideo_eq_none_of_not_mem (l : List (ℕ × VideoEntry)) (id : ℕ)
    (h : id ∉ l.map Prod.fst) : findVideo l id = none := by
  induction l with
  | nil => rfl
  | cons e rest ih =>
    rw [List.map_cons, List.mem_cons] at h
    push_neg at h
    rw [findVideo, if_neg (fun he => h.1 he.symm)]
    exact ih h.2

/-- An absent key stays absent after filtering. -/
theorem findVideo_filter_none (l : List (ℕ × VideoEntry)) (id : ℕ)
    (pred : ℕ × VideoEntry → Bool) (hv : findVideo l id = none) :
    findVideo (l.filter pred) id = none := by
  induction l with
  | nil => rfl
  | cons e rest ih =>
    rw [findVideo] at hv
    by_cases hk : e.1 = id
    · rw [if_pos hk] at hv
      exact absurd hv (by simp)
    · rw [if_neg hk] at hv
      rw [List.filter_cons]
      by_cases hp : pred e
      · rw [if_pos hp, findVideo, if_neg hk]
        exact ih hv
      · rw [if_neg hp]
        exact ih hv

/-- A found entry that passes the filter is still found (same value)
after filtering. -/
theorem findVideo_filter_some (l : List (ℕ × VideoEntry)) (id : ℕ)
    (v : VideoEntry) (pred : ℕ × VideoEntry → Bool)
    (hv : findVideo l id = some v) (hp : pred (id, v) = true) :
    findVideo (l.filter pred) id = some v := by
  induction l with
  | nil => simp [findVideo] at hv
  | cons e rest ih =>
    rw [findVideo] at hv
    by_cases hk : e.1 = id
    · rw [if_pos hk] at hv
      obtain ⟨k, w⟩ := e
      obtain rfl : k = id := hk
      obtain rfl : w = v := Option.some.inj hv
      rw [List.filter_cons, if_pos hp, findVideo, if_pos rfl]
    · rw [if_neg hk] at hv
      rw [List.filter_cons]
      by_cases hpe : pred e
      · rw [if_pos hpe, findVideo, if_neg hk]
        exact ih hv
      · rw [if_neg hpe]
        exact ih hv

/-- With unique keys, a found entry that fails the filter is gone after
filtering. -/
theorem findVideo_filter_none_of_nodup (l : List (ℕ × VideoEntry)) (id : ℕ)
    (v : VideoEntry) (pred : ℕ × VideoEntry → Bool)
    (hnod : (l.map Prod.fst).Nodup) (hv : findVideo l id = some v)
    (hp : pred (id, v) = false) :
    findVideo (l.filter pred) id = none := by
  induction l with
  | nil => simp [findVideo] at hv
  | cons e rest ih =>
    rw [List.map_cons, List.nodup_cons] at hnod
    rw [findVideo] at hv
    by_cases hk : e.1 = id
    · rw [if_pos hk] at hv
      have hv2 : e.2 = v := Option.some.inj hv
      have hrest : findVideo rest id = none := by
        apply findVideo_eq_none_of_not_mem
        rw [← hk]
        exact hnod.1
      have hpe : pred e = false := by
        have he : e = (id, v) := by
          obtain ⟨k, w⟩ := e
          simp only [Prod.mk.injEq]
          exact ⟨hk, hv2⟩
        rw [he, hp]
      rw [List.filter_cons, hpe, if_neg (by decide)]
      exact findVideo_filter_none rest id pred hrest
    · rw [if_neg hk] at hv
      rw [List.filter_cons]
      by_cases hpe : pred e
      · rw [if_pos hpe, findVideo, if_neg hk]
        exact ih hnod.2 hv
      · rw [if_neg hpe]
        exact ih hnod.2 hv

/-- Looking up the updated key gives the updated entry. -/
theorem findVideo_updateEntry_self (l : List (ℕ × VideoEntry)) (id : ℕ)
    (g : VideoEntry → VideoEntry) :
    findVideo (updateEntry id g l) id = (findVideo l id).map g := by
  induction l with
  | nil => rfl
  | cons e rest ih =>
    rw [updateEntry, List.map_cons, ← updateEntry]
    by_cases hk : e.1 = id
    · rw [if_pos hk, findVideo, findVideo, if_pos hk, if_pos hk]
      rfl
    · rw [if_neg hk, findVideo, findVideo, if_neg hk, if_neg hk]
      exact ih

/-- Looking up any other key is unaffected by the update. -/
theorem findVideo_updateEntry_ne (l : List (ℕ × VideoEntry)) (id j : ℕ)
    (g : VideoEntry → VideoEntry) (hj : j ≠ id) :
    findVideo (updateEntry id g l) j = findVideo l j := by
  induction l with
  | nil => rfl
  | cons e rest ih =>
    rw [updateEntry, List.map_cons, ← updateEntry]
    by_cases hk : e.1 = id
    · have hne : e.1 ≠ j := fun he => hj (he.symm.trans hk)
      rw [if_pos hk, findVideo, findVideo, if_neg hne, if_neg hne]
      exact ih
    · rw [if_neg hk, findVideo, findVideo]
      by_cases hej : e.1 = j
      · rw [if_pos hej, if_pos hej]
      · rw [if_neg hej, if_neg hej]
        exact ih

/-- Updating an entry does not change the key list. -/
theorem updateEntry_map_fst (l : List (ℕ × VideoEntry)) (id : ℕ)
    (g : VideoEntry → VideoEntry) :
    (updateEntry id g l).map Prod.fst = l.map Prod.fst := by
  induction l with
  | nil => rfl
  | cons e rest ih =>
    rw [updateEntry, List.map_cons, ← updateEntry, List.map_cons,
      List.map_cons, ih]
    by_cases hk : e.1 = id
    · rw [if_pos hk]
    · rw [if_neg hk]

/-- Lookup distributes over append when the key is absent on the left. -/
theorem findVideo_append_none (l1 l2 : List (ℕ × VideoEntry)) (id : ℕ)
    (h : findVideo l1 id = none) :
    findVideo (l1 ++ l2) id = findVideo l2 id := by
  induction l1 with
  | nil => rfl
  | cons e rest ih =>
    rw [findVideo] at h
    by_cases hk : e.1 = id
    · rw [if_pos hk] at h
      exact absurd h (by simp)
    · rw [if_neg hk] at h
      rw [List.cons_append, findVideo, if_neg hk]
      exact ih h

/-- Every entry surviving the cleanup sweep has a true liveness flag. -/
theorem cleanup_all_alive (p : VideoRenderPipeline) (j : ℕ) (w : VideoEntry)
    (h : findVideo p.cleanup.videos j = some w) : w.alive = true := by
  have hm := findVideo_mem _ _ _ h
  have := (List.mem_filter.mp hm).2
  simpa using this

/-- The cleanup sweep records the dead entry's two textures and instances
buffer as destroyed. -/
theorem cleanup_destroys (p : VideoRenderPipeline) (id : ℕ) (v : VideoEntry)
    (hv : findVideo p.videos id = some v) (hdead : v.alive = false) :
    v.texture_y ∈ p.cleanup.destroyed ∧
    v.texture_uv ∈ p.cleanup.destroyed ∧
    v.instances ∈ p.cleanup.destroyed := by
  have hm : (id, v) ∈ p.videos := findVideo_mem _ _ _ hv
  have hf : (id, v) ∈ p.videos.filter fun e => !e.2.alive :=
    List.mem_filter.mpr ⟨hm, by simp [hdead]⟩
  refine ⟨?_, ?_, ?_⟩ <;>
    exact List.mem_append_right _ (List.mem_flatMap.mpr ⟨(id, v), hf, by simp⟩)

/-- draw for a missing id is a no-op: no pass is begun, no offset bound,
and the state is unchanged. -/
theorem draw_missing_id (p : VideoRenderPipeline) (id : ℕ)
    (h : findVideo p.videos id = none) :
    p.draw id = (p, none) := by
  simp [VideoRenderPipeline.draw, h]

/-! ## Claim theorems -/

/-- Claim C7: every pixel-format tag has bit_depth in {8,10,12,16} and
bytes_per_pixel in {1,2}; the 8-bit tag (Nv12) maps luma to R8Unorm and
chroma to Rg8Unorm, and the 10/12/16-bit tags map both planes to
half-float layouts (R16Float / Rg16Float).  All four lookups are plain
total Lean functions of the tag (pure, no error path), mirroring the
side-effect-free total `match`es of the source. -/
theorem C7_pixel_format_catalog :
    (∀ f : VideoPixelFormat,
        f.bit_depth ∈ [8, 10, 12, 16] ∧ f.bytes_per_pixel ∈ [1, 2]) ∧
    VideoPixelFormat.Nv12.y_texture_format = TextureFormat.R8Unorm ∧
    VideoPixelFormat.Nv12.uv_texture_format = TextureFormat.Rg8Unorm ∧
    VideoPixelFormat.P010Le.y_texture_format = TextureFormat.R16Float ∧
    VideoPixelFormat.P010Le.uv_texture_format = TextureFormat.Rg16Float ∧
    VideoPixelFormat.P012Le.y_texture_format = TextureFormat.R16Float ∧
    VideoPixelFormat.P012Le.uv_texture_format = TextureFormat.Rg16Float ∧
    VideoPixelFormat.P016Le.y_texture_format = TextureFormat.R16Float ∧
    VideoPixelFormat.P016Le.uv_texture_format = TextureFormat.Rg16Float := by
  refine ⟨fun f => ?_, by decide⟩
  cases f <;> decide

/-- Claim C3: for even width and height ≥ 2 and a frame of length at least
width*height*3/2, upload writes exactly the first width*height bytes of the
frame to the luma texture and the following (width/2)*(height/2)*2 bytes to
the chroma texture, each as one contiguous row-major upload (stride = plane
width in samples: `width` byte-wide rows for luma, `width/2` two-byte
texels for chroma).  The frame is consumed as an immutable `&[u8]` and the
embedding computes the written bytes as pure functions of it, so the
caller's buffer is not mutated.  `hfit` states that the u32 product
width*height does not wrap. -/
theorem C3_upload_plane_bytes (p : VideoRenderPipeline) (video_id : ℕ)
    (alive : Bool) (w h : ℕ) (frame : List ℕ) (hw2 : 2 ≤ w) (hh2 : 2 ≤ h)
    (hwe : w % 2 = 0) (hhe : h % 2 = 0)
    (hlen : w * h * 3 / 2 ≤ frame.length) (hfit : w * h < U32) :
    (p.upload video_id alive w h frame).2.1 = frame.take (w * h) ∧
    (p.upload video_id alive w h frame).2.1.length = w * h ∧
    (p.upload video_id alive w h frame).2.2
      = (frame.drop (w * h)).take (w / 2 * (h / 2) * 2) ∧
    (p.upload video_id alive w h frame).2.2.length = w / 2 * (h / 2) * 2 := by
  obtain ⟨a, ha⟩ : ∃ a, w = 2 * a := ⟨w / 2, by omega⟩
  obtain ⟨b, hb⟩ : ∃ b, h = 2 * b := ⟨h / 2, by omega⟩
  subst ha hb
  have hL : 6 * (a * b) ≤ frame.length := by
    have hh : 2 * a * (2 * b) * 3 = 12 * (a * b) := by ring
    rw [hh] at hlen
    omega
  have h1 : (VideoRenderPipeline.upload p video_id alive (2 * a) (2 * b)
      frame).2.1 = frame.take (2 * a * (2 * b)) := by
    show writeTextureBytes (frame.take (2 * a * (2 * b) % U32)) (2 * a)
        (2 * b) (2 * a * 1) = _
    rw [Nat.mod_eq_of_lt hfit, Nat.mul_one, writeTextureBytes_contiguous,
      List.take_take]
    congr 1
    have hc : 2 * b * (2 * a) = 2 * a * (2 * b) := by ring
    rw [hc, min_self]
  have h2 : (VideoRenderPipeline.upload p video_id alive (2 * a) (2 * b)
      frame).2.2 = (frame.drop (2 * a * (2 * b))).take
        (2 * a / 2 * (2 * b / 2) * 2) := by
    show writeTextureBytes (frame.drop (2 * a * (2 * b) % U32)) (2 * a)
        (2 * b / 2) (2 * a / 2 * 2) = _
    rw [Nat.mod_eq_of_lt hfit]
    have hsteps : 2 * a / 2 * 2 = 2 * a := by omega
    rw [hsteps, writeTextureBytes_contiguous]
    congr 1
    have d1 : 2 * a / 2 = a := by omega
    have d2 : 2 * b / 2 = b := by omega
    rw [d1, d2]
    ring
  refine ⟨h1, ?_, h2, ?_⟩
  · rw [h1, List.length_take]
    have : 2 * a * (2 * b) = 4 * (a * b) := by ring
    rw [this]
    omega
  · rw [h2, List.length_take, List.length_drop]
    have e1 : 2 * a / 2 * (2 * b / 2) * 2 = 2 * (a * b) := by
      have : 2 * a / 2 = a := by omega
      rw [this]
      have : 2 * b / 2 = b := by omega
      rw [this]
      ring
    have e2 : 2 * a * (2 * b) = 4 * (a * b) := by ring
    rw [e1, e2]
    omega

/-- Witness for C3 at width = height = 2 with a 6-byte frame. -/
theorem C3_upload_plane_bytes_witness :
    (2 ≤ 2 ∧ 2 % 2 = 0 ∧ 2 * 2 * 3 / 2 ≤ (List.range 6).length ∧
        2 * 2 < U32) ∧
    ((VideoRenderPipeline.new.upload 9 true 2 2 (List.range 6)).2.1
        = (List.range 6).take (2 * 2) ∧
      (VideoRenderPipeline.new.upload 9 true 2 2 (List.range 6)).2.1.length
        = 2 * 2 ∧
      (VideoRenderPipeline.new.upload 9 true 2 2 (List.range 6)).2.2
        = ((List.range 6).drop (2 * 2)).take (2 / 2 * (2 / 2) * 2) ∧
      (VideoRenderPipeline.new.upload 9 true 2 2 (List.range 6)).2.2.length
        = 2 / 2 * (2 / 2) * 2) :=
  ⟨by decide,
    C3_upload_plane_bytes VideoRenderPipeline.new 9 true 2 2 (List.range 6)
      (by decide) (by decide) (by decide) (by decide) (by decide) (by decide)⟩

/-- Claim C10: for even width, height ≥ 2, downscale ≥ 1 and a buffer of
length at least width*height*3/2, every plane index yuv_to_rgba computes
is in bounds, so the function returns a result (never panics on
out-of-bounds indexing) whose length is exactly
4*(width/downscale)*(height/downscale).  When the index arithmetic stays
below 2^32 the bounds follow from `yuv_index_bounds`; when it wraps, every
wrapped index is below 2^32 ≤ width*height*3/2 ≤ buffer length, so reads
still stay in bounds. -/
theorem C10_no_out_of_bounds (yuv : List ℕ) (w h d : ℕ) (hw2 : 2 ≤ w)
    (hh2 : 2 ≤ h) (hwe : w % 2 = 0) (hhe : h % 2 = 0) (hd : 1 ≤ d)
    (hlen : w * h * 3 / 2 ≤ yuv.length) :
    ∃ out, yuv_to_rgba yuv w h d = some out ∧
      out.length = 4 * (w / d * (h / d)) := by
  have hcell : ∀ yy xx, yy < h / d → xx < w / d →
      ∃ c, yuvPixel yuv w d (w * h % U32) xx yy = some c ∧ c.length = 4 := by
    intro yy xx hyy hxx
    by_cases hfit : w * h * 3 / 2 < U32
    · obtain ⟨hL, hT⟩ := yuv_index_bounds w h d xx yy hw2 hh2 hwe hhe hd hxx hyy
      rw [yuvPixel, lumaIndex_nowrap w h d xx yy hw2 hh2 hwe hhe hd hxx hyy hfit,
        chromaIndex_nowrap w h d xx yy hw2 hh2 hwe hhe hd hxx hyy hfit,
        Nat.mod_eq_of_lt
          (show w * h + w * (yy * d / 2) + xx * d / 2 * 2 + 1 < U32 by omega),
        List.getElem?_eq_getElem (show yy * d * w + xx * d < yuv.length by omega),
        List.getElem?_eq_getElem
          (show w * h + w * (yy * d / 2) + xx * d / 2 * 2 < yuv.length by omega),
        List.getElem?_eq_getElem
          (show w * h + w * (yy * d / 2) + xx * d / 2 * 2 + 1 < yuv.length by
            omega)]
      exact ⟨_, rfl, rfl⟩
    · have hU : U32 ≤ yuv.length := by omega
      rw [yuvPixel,
        List.getElem?_eq_getElem
          (Nat.lt_of_lt_of_le (lumaIndex_lt_U32 w d xx yy) hU),
        List.getElem?_eq_getElem
          (Nat.lt_of_lt_of_le (chromaIndex_lt_U32 w d (w * h % U32) xx yy) hU),
        List.getElem?_eq_getElem
          (Nat.lt_of_lt_of_le (Nat.mod_lt _ (by decide)) hU)]
      exact ⟨_, rfl, rfl⟩
  obtain ⟨out, hout, houtlen⟩ :=
    mapOpt_length
      (fun yy =>
        mapOpt (fun xx => yuvPixel yuv w d (w * h % U32) xx yy)
          (List.range (w / d)))
      (List.range (h / d)) (w / d * 4)
      (by
        intro yy hyy
        rw [List.mem_range] at hyy
        obtain ⟨row, hrow, hrowlen⟩ :=
          mapOpt_length (fun xx => yuvPixel yuv w d (w * h % U32) xx yy)
            (List.range (w / d)) 4
            (by
              intro xx hxx
              rw [List.mem_range] at hxx
              exact hcell yy xx hyy hxx)
        exact ⟨row, hrow, by rw [hrowlen, List.length_range]⟩)
  refine ⟨out, hout, ?_⟩
  rw [houtlen, List.length_range]
  ring

/-- Witness for C10 at width = height = 2, downscale = 1, on an exactly
sized 6-byte buffer. -/
theorem C10_no_out_of_bounds_witness :
    (2 ≤ 2 ∧ 2 % 2 = 0 ∧ 1 ≤ 1 ∧ 2 * 2 * 3 / 2 ≤ (List.replicate 6 7).length) ∧
    ∃ out, yuv_to_rgba (List.replicate 6 7) 2 2 1 = some out ∧
      out.length = 4 * (2 / 1 * (2 / 1)) :=
  ⟨by decide,
    C10_no_out_of_bounds (List.replicate 6 7) 2 2 1 (by decide) (by decide)
      (by decide) (by decide) (by decide) (by decide)⟩

/-- Reading inside the luma plane of a uniform NV12 buffer yields the
uniform luma byte. -/
theorem uniformNV12_luma (w h yv i : ℕ) (hi : i < w * h) :
    (uniformNV12 w h yv)[i]? = some yv := by
  rw [uniformNV12,
    List.getElem?_append_left (by rw [List.length_replicate]; exact hi),
    List.getElem?_replicate, if_pos hi]

/-- Reading inside the chroma plane of a uniform NV12 buffer yields 128. -/
theorem uniformNV12_chroma (w h yv i : ℕ) (h1 : w * h ≤ i)
    (h2 : i < w * h + w * h / 2) :
    (uniformNV12 w h yv)[i]? = some 128 := by
  rw [uniformNV12,
    List.getElem?_append_right (by rw [List.length_replicate]; exact h1),
    List.length_replicate, List.getElem?_replicate, if_pos (by omega)]

/-- On a uniform NV12 buffer with downscale 1, yuv_to_rgba succeeds and
every one of the h*w output pixels is the conversion of (yv, 128, 128). -/
theorem yuv_to_rgba_uniform (w h yv : ℕ) (hw2 : 2 ≤ w) (hh2 : 2 ≤ h)
    (hwe : w % 2 = 0) (hhe : h % 2 = 0) (hfit : w * h * 3 / 2 < U32) :
    yuv_to_rgba (uniformNV12 w h yv) w h 1
      = some (List.flatten (List.replicate (h * w) (pixelRGBA yv 128 128))) := by
  have hev : w * h % 2 = 0 := by
    obtain ⟨a, ha⟩ : ∃ a, w = 2 * a := ⟨w / 2, by omega⟩
    have h2 : w * h = 2 * (a * h) := by rw [ha]; ring
    omega
  have hcell : ∀ yy xx, yy < h → xx < w →
      yuvPixel (uniformNV12 w h yv) w 1 (w * h % U32) xx yy
        = some (pixelRGBA yv 128 128) := by
    intro yy xx hyy hxx
    have hyy1 : yy < h / 1 := by rwa [Nat.div_one]
    have hxx1 : xx < w / 1 := by rwa [Nat.div_one]
    obtain ⟨hL, hT⟩ :=
      yuv_index_bounds w h 1 xx yy hw2 hh2 hwe hhe (le_refl 1) hxx1 hyy1
    rw [yuvPixel,
      lumaIndex_nowrap w h 1 xx yy hw2 hh2 hwe hhe (le_refl 1) hxx1 hyy1 hfit,
      chromaIndex_nowrap w h 1 xx yy hw2 hh2 hwe hhe (le_refl 1) hxx1 hyy1 hfit,
      Nat.mod_eq_of_lt
        (show w * h + w * (yy * 1 / 2) + xx * 1 / 2 * 2 + 1 < U32 by omega),
      uniformNV12_luma w h yv _ hL,
      uniformNV12_chroma w h yv _ (by omega) (by omega),
      uniformNV12_chroma w h yv _ (by omega) (by omega)]
    rfl
  have hrow : ∀ yy ∈ List.range h,
      mapOpt (fun xx => yuvPixel (uniformNV12 w h yv) w 1 (w * h % U32) xx yy)
          (List.range w)
        = some (List.flatten (List.replicate w (pixelRGBA yv 128 128))) := by
    intro yy hyy
    have :=
      mapOpt_const
        (fun xx => yuvPixel (uniformNV12 w h yv) w 1 (w * h % U32) xx yy)
        (List.range w) (pixelRGBA yv 128 128)
        (fun xx hxx => hcell yy xx (List.mem_range.mp hyy) (List.mem_range.mp hxx))
    rwa [List.length_range] at this
  simp only [yuv_to_rgba, Nat.div_one]
  rw [mapOpt_const _ _ _ hrow, List.length_range, flatten_replicate_mul]

/-- Claim C8: with downscale 1 and a uniform NV12 buffer whose chroma
bytes are all 128, every output pixel of yuv_to_rgba is
(254, 254, 254, 255) when every luma byte is 235 (the exact BT.601 value
1.164*(235-16) = 254.916 truncates to 254, within the claimed
integer-truncation tolerance of pure white 255), and exactly
(0, 0, 0, 255) when every luma byte is 16 (pure black).  `hfit` keeps the
u32 index arithmetic below 2^32 (the buffer addressable without
wrapping). -/
theorem C8_bt601_white_black (w h : ℕ) (hw2 : 2 ≤ w) (hh2 : 2 ≤ h)
    (hwe : w % 2 = 0) (hhe : h % 2 = 0) (hfit : w * h * 3 / 2 < U32) :
    yuv_to_rgba (uniformNV12 w h 235) w h 1
      = some (List.flatten (List.replicate (h * w) [254, 254, 254, 255])) ∧
    yuv_to_rgba (uniformNV12 w h 16) w h 1
      = some (List.flatten (List.replicate (h * w) [0, 0, 0, 255])) := by
  constructor
  · rw [yuv_to_rgba_uniform w h 235 hw2 hh2 hwe hhe hfit,
      show pixelRGBA 235 128 128 = [254, 254, 254, 255] by decide]
  · rw [yuv_to_rgba_uniform w h 16 hw2 hh2 hwe hhe hfit,
      show pixelRGBA 16 128 128 = [0, 0, 0, 255] by decide]

/-- Witness for C8 at width = height = 2. -/
theorem C8_bt601_white_black_witness :
    (2 ≤ 2 ∧ 2 % 2 = 0 ∧ 2 * 2 * 3 / 2 < U32) ∧
    (yuv_to_rgba (uniformNV12 2 2 235) 2 2 1
        = some (List.flatten (List.replicate (2 * 2) [254, 254, 254, 255])) ∧
      yuv_to_rgba (uniformNV12 2 2 16) 2 2 1
        = some (List.flatten (List.replicate (2 * 2) [0, 0, 0, 255]))) :=
  ⟨by decide,
    C8_bt601_white_black 2 2 (by decide) (by decide) (by decide) (by decide)
      (by decide)⟩

/-- Counterexample for C9.  On an all-255 NV12 input (Y = U = V = 255,
width = height = 2, downscale = 1) the exact red-channel value is
1.164*(255-16) + 1.596*(255-128) = 480.888.  The claim asserts the cast
wraps/truncates at the 8-bit boundary, which would give
trunc(480.888) mod 256 = 224; the code's Rust `as u8` cast saturates and
actually produces 255. -/
theorem C9_wrap_cast_counterexample :
    yuv_to_rgba (List.replicate 6 255) 2 2 1
      = some (List.flatten (List.replicate 4 [255, 125, 255, 255])) ∧
    claimWrapCast (1164 * ((255 : ℤ) - 16) + 1596 * ((255 : ℤ) - 128)) = 224 ∧
    (255 : ℕ) ≠ 224 :=
  ⟨by decide, by decide, by decide⟩

/-- Claim C9 (amended): each R, G, B channel is the BT.601 result cast
directly to u8 with no explicit clamping in the source, but Rust's
float-to-integer `as` cast truncates toward zero and saturates at the u8
bounds 0 and 255 (it does not wrap): on the all-255 input the red and
blue channels (exact values 480.888 and 534.482) come out 255, on the
all-0 input the red and blue channels (exact values -222.912 and
-276.928) come out 0, and in general every channel lies in [0, 255] with
the alpha channel fixed at 255 for every output pixel. -/
theorem C9_cast_saturates_alpha_255 :
    yuv_to_rgba (List.replicate 6 255) 2 2 1
      = some (List.flatten (List.replicate 4 [255, 125, 255, 255])) ∧
    yuv_to_rgba (List.replicate 6 0) 2 2 1
      = some (List.flatten (List.replicate 4 [0, 135, 0, 255])) ∧
    ∀ yv u v : ℕ, ∃ r g b : ℕ,
      pixelRGBA yv u v = [r, g, b, 255] ∧ r ≤ 255 ∧ g ≤ 255 ∧ b ≤ 255 := by
  refine ⟨by decide, by decide, ?_⟩
  intro yv u v
  refine ⟨_, _, _, rfl, ?_, ?_, ?_⟩ <;>
    · simp only [intAsU8]
      omega

/-- Core of the reclamation argument, at the level of one cleanup sweep:
a dead entry is removed and its resources destroyed, a removed id makes
draw a no-op, and live entries survive unchanged. -/
theorem C4_core (q : VideoRenderPipeline) (id : ℕ) (v1 : VideoEntry)
    (hnod : (q.videos.map Prod.fst).Nodup)
    (hv : findVideo q.videos id = some v1) (hdead : v1.alive = false) :
    findVideo q.cleanup.videos id = none ∧
    v1.texture_y ∈ q.cleanup.destroyed ∧
    v1.texture_uv ∈ q.cleanup.destroyed ∧
    v1.instances ∈ q.cleanup.destroyed ∧
    q.cleanup.draw id = (q.cleanup, none) ∧
    (∀ j w, findVideo q.cleanup.videos j = some w → w.alive = true) ∧
    (∀ j w, findVideo q.videos j = some w → w.alive = true →
      findVideo q.cleanup.videos j = some w) := by
  have h1 : findVideo q.cleanup.videos id = none := by
    show findVideo (q.videos.filter fun e => e.2.alive) id = none
    exact findVideo_filter_none_of_nodup _ _ v1 _ hnod hv (by simp [hdead])
  obtain ⟨d1, d2, d3⟩ := cleanup_destroys q id v1 hv hdead
  refine ⟨h1, d1, d2, d3, draw_missing_id _ _ h1,
    fun j w hw => cleanup_all_alive q j w hw, ?_⟩
  intro j w hw halive
  show findVideo (q.videos.filter fun e => e.2.alive) j = some w
  exact findVideo_filter_some _ _ _ _ hw (by simp [halive])

/-- Claim C4: if an entry's liveness flag reads false, the next prepare
call (for any id id2) removes that entry from the map and destroys its two
textures and its instance buffer; draw for the removed id on the resulting
state is a no-op; entries whose flag reads true survive the sweep; and
after the prepare step the map contains no entry whose flag was observed
false.  `hnod` is the BTreeMap key-uniqueness invariant of the embedding's
association list. -/
theorem C4_liveness_reclamation (p : VideoRenderPipeline) (id id2 : ℕ)
    (b : Rectangle) (v : VideoEntry)
    (hnod : (p.videos.map Prod.fst).Nodup)
    (hv : findVideo p.videos id = some v) (hdead : v.alive = false) :
    findVideo (p.prepare id2 b).videos id = none ∧
    v.texture_y ∈ (p.prepare id2 b).destroyed ∧
    v.texture_uv ∈ (p.prepare id2 b).destroyed ∧
    v.instances ∈ (p.prepare id2 b).destroyed ∧
    (p.prepare id2 b).draw id = (p.prepare id2 b, none) ∧
    (∀ j w, findVideo (p.prepare id2 b).videos j = some w →
      w.alive = true) ∧
    (∀ j w, findVideo p.videos j = some w → w.alive = true →
      ∃ w2, findVideo (p.prepare id2 b).videos j = some w2 ∧
        w2.alive = true) := by
  cases hid2 : findVideo p.videos id2 with
  | none =>
    have hpe : p.prepare id2 b = p.cleanup := by
      simp only [VideoRenderPipeline.prepare, hid2]
    obtain ⟨h1, d1, d2, d3, hdraw, hall, hpres⟩ := C4_core p id v hnod hv hdead
    rw [hpe]
    exact ⟨h1, d1, d2, d3, hdraw, hall,
      fun j w hw ha => ⟨w, hpres j w hw ha, ha⟩⟩
  | some v2 =>
    have hpe : p.prepare id2 b
        = ({ p with videos := updateEntry id2 (prepareUpdate b) p.videos } :
            VideoRenderPipeline).cleanup := by
      simp only [VideoRenderPipeline.prepare, hid2]
    have hnodq : ((updateEntry id2 (prepareUpdate b) p.videos).map
        Prod.fst).Nodup := by
      rw [updateEntry_map_fst]
      exact hnod
    by_cases hii : id = id2
    · subst hii
      have hvq : findVideo (updateEntry id (prepareUpdate b) p.videos) id
          = some (prepareUpdate b v) := by
        rw [findVideo_updateEntry_self, hv]
        rfl
      obtain ⟨h1, d1, d2, d3, hdraw, hall, hpres⟩ :=
        C4_core { p with videos := updateEntry id (prepareUpdate b) p.videos }
          id (prepareUpdate b v) hnodq hvq hdead
      rw [hpe]
      refine ⟨h1, d1, d2, d3, hdraw, hall, ?_⟩
      intro j w hw ha
      by_cases hji : j = id
      · subst hji
        rw [hv] at hw
        cases Option.some.inj hw
        rw [hdead] at ha
        exact absurd ha (by decide)
      · have hwq : findVideo (updateEntry id (prepareUpdate b) p.videos) j
            = some w := by
          rw [findVideo_updateEntry_ne _ _ _ _ hji]
          exact hw
        exact ⟨w, hpres j w hwq ha, ha⟩
    · have hvq : findVideo (updateEntry id2 (prepareUpdate b) p.videos) id
          = some v := by
        rw [findVideo_updateEntry_ne _ _ _ _ hii]
        exact hv
      obtain ⟨h1, d1, d2, d3, hdraw, hall, hpres⟩ :=
        C4_core { p with videos := updateEntry id2 (prepareUpdate b) p.videos }
          id v hnodq hvq hdead
      rw [hpe]
      refine ⟨h1, d1, d2, d3, hdraw, hall, ?_⟩
      intro j w hw ha
      by_cases hji : j = id2
      · subst hji
        have hwq : findVideo (updateEntry j (prepareUpdate b) p.videos) j
            = some (prepareUpdate b w) := by
          rw [findVideo_updateEntry_self, hw]
          rfl
        exact ⟨prepareUpdate b w, hpres j (prepareUpdate b w) hwq ha, ha⟩
      · have hwq : findVideo (updateEntry id2 (prepareUpdate b) p.videos) j
            = some w := by
          rw [findVideo_updateEntry_ne _ _ _ _ hji]
          exact hw
        exact ⟨w, hpres j w hwq ha, ha⟩

/-- Witness for C4 on a concrete pipeline holding one dead entry. -/
theorem C4_liveness_reclamation_witness :
    ((deadEntryPipeline.videos.map Prod.fst).Nodup ∧
      findVideo deadEntryPipeline.videos 7
        = some ⟨0, 1, 2, 3, false, 0, 0, []⟩ ∧
      (⟨0, 1, 2, 3, false, 0, 0, []⟩ : VideoEntry).alive = false) ∧
    (findVideo (deadEntryPipeline.prepare 7 rect0).videos 7 = none ∧
      (0 : ℕ) ∈ (deadEntryPipeline.prepare 7 rect0).destroyed ∧
      (1 : ℕ) ∈ (deadEntryPipeline.prepare 7 rect0).destroyed ∧
      (2 : ℕ) ∈ (deadEntryPipeline.prepare 7 rect0).destroyed ∧
      (deadEntryPipeline.prepare 7 rect0).draw 7
        = (deadEntryPipeline.prepare 7 rect0, none) ∧
      (∀ j w, findVideo (deadEntryPipeline.prepare 7 rect0).videos j
          = some w → w.alive = true) ∧
      (∀ j w, findVideo deadEntryPipeline.videos j = some w →
        w.alive = true →
        ∃ w2, findVideo (deadEntryPipeline.prepare 7 rect0).videos j
            = some w2 ∧ w2.alive = true)) :=
  ⟨⟨by decide, rfl, rfl⟩,
    C4_liveness_reclamation deadEntryPipeline 7 7 rect0
      ⟨0, 1, 2, 3, false, 0, 0, []⟩ (by decide) rfl rfl⟩

/-- Closed form of n prepare calls (no intervening draw) on
`entryPipeline`: the n instance-buffer writes land at byte offsets
0, 256, ..., (n-1)*256 — the offset is `prepare_index * 256` with no
modulo by the 256-slot capacity. -/
theorem iterPrepare_entryPipeline (n : ℕ) :
    iterPrepare 7 rect0 n entryPipeline
      = { videos := [(7, entryAfter n)], nextRes := 4, destroyed := [] } := by
  induction n with
  | zero => rfl
  | succ k ih =>
    rw [iterPrepare, ih]
    simp [VideoRenderPipeline.prepare, VideoRenderPipeline.cleanup,
      findVideo, updateEntry, prepareUpdate, entryAfter, List.range_succ]

/-- Counterexample for C1: starting from a freshly created entry, 257
prepare calls with no intervening draw make the 257th write land at byte
offset 256*256 = 65536 (slot 256).  The instances buffer is
256 * 256 = 65536 bytes, so a 256-byte record at offset 65536 lies
entirely outside the buffer; the claim instead asserts the write wraps to
slot 257-1 mod 256 = 0, i.e. offset 0. -/
theorem C1_no_ring_wrap_counterexample :
    (findVideo (iterPrepare 7 rect0 257 entryPipeline).videos 7).map
        (fun v => v.instanceWrites[256]?)
      = some (some (65536, mkUniforms rect0)) ∧
    instancesBufferSize = 65536 ∧
    (65536 : ℕ) + uniformsSize > instancesBufferSize ∧
    (65536 : ℕ) ≠ (257 - 1) % 256 * uniformsSize := by
  refine ⟨?_, by decide, by decide, by decide⟩
  rw [iterPrepare_entryPipeline 257]
  show some ((entryAfter 257).instanceWrites[256]?) = _
  rw [entryAfter]
  show some (((List.range 257).map fun k =>
      (k * uniformsSize % U64, mkUniforms rect0))[256]?) = _
  rw [List.getElem?_map, List.getElem?_range (by norm_num)]
  show some (some (256 * uniformsSize % U64, mkUniforms rect0)) = _
  norm_num [uniformsSize, U64]

/-- Claim C1 (amended): each prepare call for an existing (live) entry
writes the 256-byte record at byte offset `prepare_index * 256` with NO
modulo by the 256-slot capacity; offsets are in bounds exactly for
prepare_index ≤ 255 (the documented 256-call cap per frame), and the
257th prepare with no intervening draw (prepare_index = 256) writes at
offset 65536, outside the 65536-byte instances buffer, instead of
wrapping to slot 0. -/
theorem C1_prepare_offset_no_modulo (p : VideoRenderPipeline) (id : ℕ)
    (b : Rectangle) (v : VideoEntry)
    (hv : findVideo p.videos id = some v) (halive : v.alive = true) :
    (∃ v1, findVideo (p.prepare id b).videos id = some v1 ∧
      v1.instanceWrites = v.instanceWrites ++
        [(v.prepare_index * uniformsSize % U64, mkUniforms b)] ∧
      v1.prepare_index = v.prepare_index + 1 ∧ v1.render_index = 0) ∧
    (∀ n, n ≤ 255 →
      n * uniformsSize % U64 + uniformsSize ≤ instancesBufferSize) ∧
    256 * uniformsSize % U64 + uniformsSize > instancesBufferSize := by
  refine ⟨?_, ?_, by decide⟩
  · have hq : findVideo (updateEntry id (prepareUpdate b) p.videos) id
        = some (prepareUpdate b v) := by
      rw [findVideo_updateEntry_self, hv]
      rfl
    have hpe : p.prepare id b
        = ({ p with videos := updateEntry id (prepareUpdate b) p.videos } :
            VideoRenderPipeline).cleanup := by
      simp only [VideoRenderPipeline.prepare, hv]
    rw [hpe]
    refine ⟨prepareUpdate b v, ?_, rfl, rfl, rfl⟩
    show findVideo ((updateEntry id (prepareUpdate b) p.videos).filter
        fun e => e.2.alive) id = some (prepareUpdate b v)
    exact findVideo_filter_some _ _ _ _ hq halive
  · intro n hn
    have h1 : n * uniformsSize ≤ 255 * uniformsSize :=
      Nat.mul_le_mul_right _ hn
    have h2 : 255 * uniformsSize = 65280 := by norm_num [uniformsSize]
    have h3 : uniformsSize = 256 := by norm_num [uniformsSize]
    have h4 : instancesBufferSize = 65536 := by
      norm_num [instancesBufferSize, uniformsSize]
    have h5 : U64 = 18446744073709551616 := rfl
    rw [Nat.mod_eq_of_lt (by omega)]
    omega

/-- Witness for C1 (amended) on the fresh single-entry pipeline. -/
theorem C1_prepare_offset_no_modulo_witness :
    (findVideo entryPipeline.videos 7 = some ⟨0, 1, 2, 3, true, 0, 0, []⟩ ∧
      (⟨0, 1, 2, 3, true, 0, 0, []⟩ : VideoEntry).alive = true) ∧
    ((∃ v1, findVideo (entryPipeline.prepare 7 rect0).videos 7 = some v1 ∧
        v1.instanceWrites = ([] : List (ℕ × Uniforms)) ++
          [(0 * uniformsSize % U64, mkUniforms rect0)] ∧
        v1.prepare_index = 0 + 1 ∧ v1.render_index = 0) ∧
      (∀ n, n ≤ 255 →
        n * uniformsSize % U64 + uniformsSize ≤ instancesBufferSize) ∧
      256 * uniformsSize % U64 + uniformsSize > instancesBufferSize) :=
  ⟨⟨rfl, rfl⟩,
    C1_prepare_offset_no_modulo entryPipeline 7 rect0
      ⟨0, 1, 2, 3, true, 0, 0, []⟩ rfl rfl⟩

set_option maxRecDepth 4000 in
/-- Claim C2: on a freshly created entry (both indices 0), prepare then
draw binds the bind group at dynamic offset 0 — slot 0, holding exactly
the record just written from the prepared bounds; prepare twice then draw
twice (no wrap) writes slots 0 and 1 in order and the two draws bind
dynamic offsets 0 and 256 = 1 * 256, i.e. the two distinct slots in write
order. -/
theorem C2_prepare_draw_slots (b1 b2 : Rectangle) :
    (((entryPipeline.prepare 7 b1).draw 7).2 = some 0 ∧
      (findVideo (entryPipeline.prepare 7 b1).videos 7).map
          VideoEntry.instanceWrites
        = some [(0, mkUniforms b1)]) ∧
    ((((entryPipeline.prepare 7 b1).prepare 7 b2).draw 7).2 = some 0 ∧
      (((((entryPipeline.prepare 7 b1).prepare 7 b2).draw 7).1).draw 7).2
        = some 256 ∧
      (findVideo ((entryPipeline.prepare 7 b1).prepare 7 b2).videos 7).map
          VideoEntry.instanceWrites
        = some [(0, mkUniforms b1), (256, mkUniforms b2)]) :=
  ⟨⟨rfl, rfl⟩, rfl, rfl, rfl⟩

/-- Counterexample for C5: calling prepare for a previously-unseen id
(here id 5 on the empty, freshly constructed pipeline) does NOT create an
entry: after the call the map still has no entry for that id, so the
first prepare call does not perform the Absent→Live transition the claim
asserts. -/
theorem C5_prepare_does_not_create_counterexample :
    VideoRenderPipeline.new.videos = [] ∧
    findVideo (VideoRenderPipeline.new.prepare 5 rect0).videos 5 = none :=
  ⟨rfl, rfl⟩

/-- Claim C5 (amended): for a previously-unseen id, the first `upload`
call performs Absent→Live — afterwards the map holds an entry for the id
with freshly allocated textures (resource ids p.nextRes .. p.nextRes+3)
and both indices 0 — but a `prepare` call for an unseen id creates no
entry: after it, the map still has none. -/
theorem C5_upload_creates_prepare_does_not (p : VideoRenderPipeline)
    (id : ℕ) (alive : Bool) (w h : ℕ) (frame : List ℕ) (b : Rectangle)
    (habsent : findVideo p.videos id = none) :
    findVideo ((p.upload id alive w h frame).1).videos id
      = some { texture_y := p.nextRes, texture_uv := p.nextRes + 1,
               instances := p.nextRes + 2,
               video_uniforms := p.nextRes + 3, alive := alive,
               prepare_index := 0, render_index := 0,
               instanceWrites := [] } ∧
    findVideo (p.prepare id b).videos id = none := by
  constructor
  · have h1 : (p.upload id alive w h frame).1
        = { p with
            videos := p.videos ++
              [(id, { texture_y := p.nextRes, texture_uv := p.nextRes + 1,
                      instances := p.nextRes + 2,
                      video_uniforms := p.nextRes + 3, alive := alive,
                      prepare_index := 0, render_index := 0,
                      instanceWrites := [] })],
            nextRes := p.nextRes + 4 } := by
      simp only [VideoRenderPipeline.upload, habsent]
    rw [h1]
    show findVideo (p.videos ++ [(id, _)]) id = _
    rw [findVideo_append_none _ _ _ habsent, findVideo, if_pos rfl]
  · have hpe : p.prepare id b = p.cleanup := by
      simp only [VideoRenderPipeline.prepare, habsent]
    rw [hpe]
    show findVideo (p.videos.filter fun e => e.2.alive) id = none
    exact findVideo_filter_none _ _ _ habsent

/-- Witness for C5 (amended) at an empty pipeline and id 9. -/
theorem C5_upload_creates_prepare_does_not_witness :
    findVideo VideoRenderPipeline.new.videos 9 = none ∧
    (findVideo ((VideoRenderPipeline.new.upload 9 true 2 2
          (List.replicate 6 0)).1).videos 9
        = some { texture_y := VideoRenderPipeline.new.nextRes,
                 texture_uv := VideoRenderPipeline.new.nextRes + 1,
                 instances := VideoRenderPipeline.new.nextRes + 2,
                 video_uniforms := VideoRenderPipeline.new.nextRes + 3,
                 alive := true, prepare_index := 0, render_index := 0,
                 instanceWrites := [] } ∧
      findVideo (VideoRenderPipeline.new.prepare 9 rect0).videos 9 = none) :=
  ⟨rfl,
    C5_upload_creates_prepare_does_not VideoRenderPipeline.new 9 true 2 2
      (List.replicate 6 0) rect0 rfl⟩

/-- Counterexample for C6: when the frame-buffer lock cannot be acquired,
VideoPrimitive::prepare does NOT silently skip the upload — the
`.expect("lock frame mutex")` panics (modelled as `Except.error ()`),
aborting the host's per-frame callback instead of continuing into
pipeline.prepare as the claim's silent-no-op contract requires. -/
theorem C6_lock_failure_panics_counterexample :
    VideoPrimitive.prepare VideoRenderPipeline.new 3 true (2, 2) true none
        rect0
      = Except.error () ∧
    Except.error () ≠ Except.ok (VideoRenderPipeline.new.prepare 3 rect0) :=
  ⟨rfl, fun he => Except.noConfusion he⟩

/-- Claim C6 (amended): prepare and draw for an id with no entry are
silent no-ops (prepare skips the transform write and only runs the usual
cleanup sweep; draw begins no pass and leaves the state unchanged), and
an empty frame buffer silently skips the upload while the per-frame
prepare still completes normally; but a frame-buffer lock acquisition
failure is NOT swallowed — it panics (Except.error), crashing the host's
per-frame callback. -/
theorem C6_per_frame_failure_semantics (p : VideoRenderPipeline) (id : ℕ)
    (alive : Bool) (size : ℕ × ℕ) (b : Rectangle)
    (hmiss : findVideo p.videos id = none) :
    p.prepare id b = p.cleanup ∧
    p.draw id = (p, none) ∧
    VideoPrimitive.prepare p id alive size true (some []) b
      = Except.ok (p.prepare id b) ∧
    VideoPrimitive.prepare p id alive size true none b
      = Except.error () := by
  refine ⟨?_, draw_missing_id p id hmiss, rfl, rfl⟩
  simp only [VideoRenderPipeline.prepare, hmiss]

/-- Witness for C6 (amended): id 5 has no entry in the single-entry
pipeline. -/
theorem C6_per_frame_failure_semantics_witness :
    findVideo entryPipeline.videos 5 = none ∧
    (entryPipeline.prepare 5 rect0 = entryPipeline.cleanup ∧
      entryPipeline.draw 5 = (entryPipeline, none) ∧
      VideoPrimitive.prepare entryPipeline 5 true (2, 2) true (some [])
          rect0
        = Except.ok (entryPipeline.prepare 5 rect0) ∧
      VideoPrimitive.prepare entryPipeline 5 true (2, 2) true none rect0
        = Except.error ()) :=
  ⟨rfl,
    C6_per_frame_failure_semantics entryPipeline 5 true (2, 2) rect0 rfl⟩

end Subwave
